import Mathlib

/-!
Shallow embedding of the verification-and-measurement engine of the
`opsg-unit-test-generation` repository (package `pfc3`, plus the legacy
`scripts/pipeline` variants), together with proofs about the claims of its
specification.

External tool invocations (javac, the JUnit runner, the LLM repair adapter,
JaCoCo, PIT) are modelled as environment records supplying the observable
result of each call site (exit code, stdout, stderr, parsed XML content);
the control flow, state threading, and arithmetic of the Python code are
translated directly.  Python floats are modelled as rationals (`ℚ`).
-/

namespace Pfc3

/-- Result of an external process invocation as captured by
`src/pfc3/core/runner.py` callers: exit code plus captured output streams. -/
structure ProcResult where
  returncode : Int
  stdout : String
  stderr : String
deriving DecidableEq, Repr

/-- Python's substring containment test `needle in hay` on the character
lists of two strings (used for the `"OK (" in res.stdout` pass detection in
`verification.py` lines 120 and 126). -/
def containsSub (needle : List Char) : List Char → Bool
  | [] => needle.isEmpty
  | c :: rest => needle.isPrefixOf (c :: rest) || containsSub needle rest

/-- Python's `needle in hay` on strings. -/
def pyIn (needle hay : String) : Bool :=
  containsSub needle.toList hay.toList

/-- Result dictionary returned by the LLM adapter's `generate` method
(`adapter.generate(prompt)` in `verification.py` line 198): a success flag
plus the generated code or an error message. -/
structure LLMResult where
  success : Bool
  code : String
  error : String

/-- Environment for `VerificationPhase._repair_test` (`verification.py`
lines 138–225): the results of the two external call sites inside the repair
loop, indexed by the attempt counter.  `gen i` is the adapter response at
attempt `i`; `javac i` is the compiler result obtained after writing the
attempt-`i` repaired file (the prompt construction, `clean_java_code`
post-processing and file rewriting feed only these external calls, so their
effect is absorbed into the per-attempt oracle). -/
structure RepairEnv where
  gen : Nat → LLMResult
  javac : Nat → ProcResult

/-- Number of repair attempts, the `max_attempts` default parameter of
`_repair_test` (`verification.py` line 138). -/
def maxAttempts : Nat := 3

/-- Body of the loop `for attempt in range(1, max_attempts + 1)` of
`_repair_test` (`verification.py` lines 174–224), instrumented with a count
of the `run_javac` invocations it performs.  Returns the boolean result of
`_repair_test` paired with that count.  An adapter failure executes
`continue` (consuming the attempt without compiling); a compiler exit code 0
returns `True` immediately; otherwise the loop retries with the updated
error log and code (state threading that only feeds the next prompt). -/
def repairGo (env : RepairEnv) : Nat → Nat → Nat → Bool × Nat
  | _, 0, compiles => (false, compiles)
  | attempt, fuel + 1, compiles =>
    let result := env.gen attempt
    if result.success = false then
      repairGo env (attempt + 1) fuel compiles
    else
      let res := env.javac attempt
      if res.returncode = 0 then (true, compiles + 1)
      else repairGo env (attempt + 1) fuel (compiles + 1)

/-- Model of `VerificationPhase._repair_test`: iteratively ask the adapter
for a fix and recompile, for `attempt` in `1 .. max_attempts`; `False` when
the budget is exhausted without a successful compilation. -/
def repair_test (env : RepairEnv) : Bool :=
  (repairGo env 1 maxAttempts 0).1

/-- Number of `run_javac` calls performed by `_repair_test` in environment
`env` (instrumentation of the same loop). -/
def repairCompileCount (env : RepairEnv) : Nat :=
  (repairGo env 1 maxAttempts 0).2

/-- Environment for `VerificationPhase._verify_test` (`verification.py`
lines 82–136): the observable results of its external call sites, in source
order.  `compile1` is the first `run_javac` on the refined test (line 93);
`repair` drives the repair loop; `compile2` is the re-compilation after a
successful repair (line 102); `compileOrig` is the compilation of the
original test (line 112), whose result the source never binds; `runOrig`
and `runRef` are the two JUnitCore runs (lines 119 and 125); `compile3` is
the refined re-compilation before the refined run (line 124), also unbound
in the source. -/
structure VerifyEnv where
  compile1 : ProcResult
  repair : RepairEnv
  compile2 : ProcResult
  compileOrig : ProcResult
  runOrig : ProcResult
  compile3 : ProcResult
  runRef : ProcResult

/-- Pass detection for the original-test run: `"OK (" in orig_res.stdout`
(`verification.py` line 120). -/
def origPassed (env : VerifyEnv) : Bool :=
  pyIn "OK (" env.runOrig.stdout

/-- Pass detection for the refined-test run: `"OK (" in ref_res.stdout`
(`verification.py` line 126). -/
def refPassed (env : VerifyEnv) : Bool :=
  pyIn "OK (" env.runRef.stdout

/-- Continuation of `_verify_test` after the refined-test compilation block
(`verification.py` lines 108–136).  `res` is the value of the Python local
`res` at that point (the refined compilation result; the call on line 112
that compiles the original is executed but its result is not assigned, so
line 113 re-reads `res`). -/
def verifyAfterCompile (env : VerifyEnv) (res : ProcResult) : Bool × String :=
  let _origCompile := env.compileOrig
  if res.returncode ≠ 0 then (false, "Original compilation failed")
  else
    let orig_res := env.runOrig
    let orig_passed := pyIn "OK (" orig_res.stdout
    let _recompile := env.compile3
    let ref_res := env.runRef
    let ref_passed := pyIn "OK (" ref_res.stdout
    if orig_passed && ref_passed then (true, "Preserved (Pass)")
    else if !orig_passed && !ref_passed then (true, "Preserved (Fail)")
    else if orig_passed && !ref_passed then (false, "Regression")
    else (false, "Fix (Unexpected)")

/-- Model of `VerificationPhase._verify_test` (`verification.py` lines
82–136): compile the refined test (attempting repair on failure), compile
and run the original, re-compile and run the refined test, and classify the
pair of outcomes. -/
def verify_test (env : VerifyEnv) : Bool × String :=
  let res := env.compile1
  if res.returncode ≠ 0 then
    if repair_test env.repair then
      let res := env.compile2
      if res.returncode ≠ 0 then (false, "Compilation failed after repair")
      else verifyAfterCompile env res
    else (false, "Compilation failed (Repair failed)")
  else verifyAfterCompile env res

/-- The verification procedure reaches the oracle-comparison step: either
the refined test compiled directly, or the repair loop succeeded and the
subsequent re-compilation succeeded. -/
def reachesOracle (env : VerifyEnv) : Prop :=
  env.compile1.returncode = 0 ∨
    (repair_test env.repair = true ∧ env.compile2.returncode = 0)

/-- The instrumented repair loop performs at most `fuel` further compiler
invocations beyond the `compiles` already counted. -/
theorem repairGo_count_le (env : RepairEnv) :
    ∀ fuel attempt compiles, (repairGo env attempt fuel compiles).2 ≤ compiles + fuel := by
  intro fuel
  induction fuel with
  | zero => intro attempt compiles; simp [repairGo]
  | succ n ih =>
    intro attempt compiles
    unfold repairGo
    by_cases hs : (env.gen attempt).success = false
    · rw [if_pos hs]
      exact (ih (attempt + 1) compiles).trans (by omega)
    · rw [if_neg hs]
      by_cases hc : (env.javac attempt).returncode = 0
      · rw [if_pos hc]; omega
      · rw [if_neg hc]
        exact (ih (attempt + 1) (compiles + 1)).trans (by omega)

/-- When every compiler invocation offered by the environment fails, the
repair loop returns `false`. -/
theorem repairGo_all_fail (env : RepairEnv)
    (h : ∀ i, (env.javac i).returncode ≠ 0) :
    ∀ fuel attempt compiles, (repairGo env attempt fuel compiles).1 = false := by
  intro fuel
  induction fuel with
  | zero => intro attempt compiles; simp [repairGo]
  | succ n ih =>
    intro attempt compiles
    unfold repairGo
    by_cases hs : (env.gen attempt).success = false
    · rw [if_pos hs]; exact ih (attempt + 1) compiles
    · rw [if_neg hs, if_neg (h attempt)]
      exact ih (attempt + 1) (compiles + 1)

/-- C4: the compile-and-repair loop of `_repair_test` is bounded: in every
environment it performs at most `max_attempts` (= 3) compiler invocations —
so never a fourth — and when every offered compilation fails (the budget is
exhausted without a successful compilation) it returns failure. -/
theorem repair_loop_bounded (env : RepairEnv) :
    repairCompileCount env ≤ maxAttempts ∧
      ((∀ i, (env.javac i).returncode ≠ 0) → repair_test env = false) := by
  constructor
  · have := repairGo_count_le env maxAttempts 1 0
    simpa [repairCompileCount] using this
  · intro h
    have := repairGo_all_fail env h maxAttempts 1 0
    simpa [repair_test] using this

/-- Concrete repair environment in which the adapter always answers but the
compiler always fails with exit code 1. -/
def repairEnvAllFail : RepairEnv :=
  { gen := fun _ => { success := true, code := "class A {}", error := "" }
    javac := fun _ => { returncode := 1, stdout := "", stderr := "error" } }

/-- Witness for C4: in the always-failing environment the loop performs at
most 3 compilations and reports failure. -/
theorem repair_loop_bounded_witness :
    repairCompileCount repairEnvAllFail ≤ maxAttempts ∧
      repair_test repairEnvAllFail = false :=
  ⟨(repair_loop_bounded repairEnvAllFail).1,
    (repair_loop_bounded repairEnvAllFail).2 (fun _ => by simp [repairEnvAllFail])⟩

/-- After a successful compilation (`res.returncode = 0`), the tail of
`_verify_test` classifies the run outcomes by the four-way oracle table. -/
theorem verifyAfterCompile_ok (env : VerifyEnv) (res : ProcResult)
    (h : res.returncode = 0) :
    verifyAfterCompile env res =
      (if origPassed env && refPassed env then (true, "Preserved (Pass)")
       else if !origPassed env && !refPassed env then (true, "Preserved (Fail)")
       else if origPassed env && !refPassed env then (false, "Regression")
       else (false, "Fix (Unexpected)")) := by
  unfold verifyAfterCompile origPassed refPassed
  simp [h]

/-- Whenever the oracle step is reached, `_verify_test` computes exactly the
table applied to the two pass flags. -/
theorem verify_test_oracle (env : VerifyEnv) (h : reachesOracle env) :
    verify_test env =
      (if origPassed env && refPassed env then (true, "Preserved (Pass)")
       else if !origPassed env && !refPassed env then (true, "Preserved (Fail)")
       else if origPassed env && !refPassed env then (false, "Regression")
       else (false, "Fix (Unexpected)")) := by
  by_cases h1 : env.compile1.returncode = 0
  · rw [show verify_test env = verifyAfterCompile env env.compile1 by
      unfold verify_test; simp [h1]]
    exact verifyAfterCompile_ok env env.compile1 h1
  · rcases h with h1' | ⟨hr, h2⟩
    · exact absurd h1' h1
    · rw [show verify_test env = verifyAfterCompile env env.compile2 by
        unfold verify_test; simp [h1, hr, h2]]
      exact verifyAfterCompile_ok env env.compile2 h2

/-- C1: oracle classification is a pure function of the pair of runner
outcomes, for every environment (hence independent of the test code
content): (pass, pass) ↦ verified with reason `Preserved (Pass)`,
(fail, fail) ↦ verified with reason `Preserved (Fail)`, (pass, fail) ↦ not
verified with reason `Regression`, (fail, pass) ↦ not verified with reason
`Fix (Unexpected)` (the spec's `Unexpected-Fix`). -/
theorem oracle_classification_pure (env : VerifyEnv) (h : reachesOracle env) :
    (origPassed env = true → refPassed env = true →
      verify_test env = (true, "Preserved (Pass)")) ∧
    (origPassed env = false → refPassed env = false →
      verify_test env = (true, "Preserved (Fail)")) ∧
    (origPassed env = true → refPassed env = false →
      verify_test env = (false, "Regression")) ∧
    (origPassed env = false → refPassed env = true →
      verify_test env = (false, "Fix (Unexpected)")) := by
  rw [verify_test_oracle env h]
  refine ⟨?_, ?_, ?_, ?_⟩ <;> intro hp hq <;> simp [hp, hq]

/-- Concrete verification environment: the refined test compiles first try
and both runs print the JUnit success banner. -/
def verifyEnvPassPass : VerifyEnv :=
  { compile1 := { returncode := 0, stdout := "", stderr := "" }
    repair := repairEnvAllFail
    compile2 := { returncode := 0, stdout := "", stderr := "" }
    compileOrig := { returncode := 0, stdout := "", stderr := "" }
    runOrig := { returncode := 0, stdout := "OK (2 tests)", stderr := "" }
    compile3 := { returncode := 0, stdout := "", stderr := "" }
    runRef := { returncode := 0, stdout := "OK (2 tests)", stderr := "" } }

/-- Witness for C1: in the concrete (pass, pass) environment the verdict is
verified with reason `Preserved (Pass)`. -/
theorem oracle_classification_pure_witness :
    verify_test verifyEnvPassPass = (true, "Preserved (Pass)") :=
  (oracle_classification_pure verifyEnvPassPass (Or.inl rfl)).1
    (by decide) (by decide)

/-- C10: the `"Original compilation failed"` branch of `_verify_test` is
unreachable in every environment — including those where the compilation of
the original test fails — because line 113 of `verification.py` re-reads
the refined-test compilation result, which is 0 whenever that line runs. -/
theorem original_compile_check_unreachable (env : VerifyEnv) :
    verify_test env ≠ (false, "Original compilation failed") := by
  have key : ∀ res : ProcResult, res.returncode = 0 →
      verifyAfterCompile env res ≠ (false, "Original compilation failed") := by
    intro res h
    rw [verifyAfterCompile_ok env res h]
    split_ifs <;> decide
  unfold verify_test
  by_cases h1 : env.compile1.returncode = 0
  · simpa [h1] using key env.compile1 h1
  · simp only [h1, if_true, if_false, ite_not]
    by_cases hr : repair_test env.repair
    · by_cases h2 : env.compile2.returncode = 0
      · simpa [hr, h2] using key env.compile2 h2
      · simp [hr, h2]
    · simp [hr]

/-- One `<counter>` element of a JaCoCo XML class node: its `type`
attribute and the `covered` / `missed` integer attributes. -/
structure JCounter where
  ctype : String
  covered : Int
  missed : Int
deriving DecidableEq, Repr

/-- One `<class>` element of a JaCoCo XML report: binary name plus its
counter children. -/
structure JClass where
  name : String
  counters : List JCounter
deriving DecidableEq, Repr

/-- Parsed JaCoCo XML report, as the list of all `<class>` elements found
by `root.findall(".//class")` in `evaluation.py` line 199. -/
structure JacocoReport where
  classes : List JClass
deriving DecidableEq, Repr

/-- Conversion of the target class name to its binary path,
`target_class.replace('.', '/')` (`evaluation.py` line 192): the pattern is
the single character `.`, so the replacement is a character map. -/
def targetPathOf (target_class : String) : String :=
  String.mk (target_class.toList.map (fun ch => if ch = '.' then '/' else ch))

/-- Python's `name.startswith(pre)` on the character lists of the two
strings. -/
def startsWith (pre s : String) : Bool :=
  pre.toList.isPrefixOf s.toList

/-- Class-name match of `evaluation.py` line 203: exact match with the
target path or an inner-class variant `path$...`. -/
def classMatches (tp name : String) : Bool :=
  name == tp || startsWith (tp ++ "$") name

/-- The `counters` dictionary of `_parse_jacoco`, mapping counter type to
accumulated (covered, missed). -/
abbrev CountersDict := List (String × Int × Int)

/-- Initial value `{"LINE": {...0...}, "BRANCH": {...0...}}` of the
counters dictionary (`evaluation.py` line 194). -/
def countersInit : CountersDict :=
  [("LINE", (0 : Int), (0 : Int)), ("BRANCH", (0 : Int), (0 : Int))]

/-- The in-place `+=` on the entry keyed by the counter's type. -/
def bumpCounter (c : JCounter) (p : String × Int × Int) : String × Int × Int :=
  if p.1 == c.ctype then (p.1, p.2.1 + c.covered, p.2.2 + c.missed) else p

/-- Python's `key in dict` membership test on the counters dictionary. -/
def hasKey (d : CountersDict) (k : String) : Bool :=
  match d with
  | [] => false
  | p :: rest => p.1 == k || hasKey rest k

/-- Body of the counter loop (`evaluation.py` lines 205–211): create the
entry for an unseen counter type, then add the counter's covered and missed
values to it. -/
def addCounter (d : CountersDict) (c : JCounter) : CountersDict :=
  let d' := if hasKey d c.ctype then d
            else d ++ [(c.ctype, (0 : Int), (0 : Int))]
  d'.map (bumpCounter c)

/-- The class loop of `_parse_jacoco` (`evaluation.py` lines 199–211):
fold every counter of every matching class into the counters dictionary. -/
def collectCounters (report : JacocoReport) (tp : String) : CountersDict :=
  report.classes.foldl
    (fun d cls =>
      if classMatches tp cls.name then cls.counters.foldl addCounter d else d)
    countersInit

/-- Dictionary read `counters.get(kind, {"covered": 0, "missed": 0})`
(`evaluation.py` lines 223–233): value of the first entry with the given
key, or zeros when absent. -/
def countersGet (d : CountersDict) (kind : String) : Int × Int :=
  match d with
  | [] => (0, 0)
  | p :: rest => if p.1 = kind then p.2 else countersGet rest kind

/-- The percentage helper `calc` of `_parse_jacoco` (`evaluation.py` lines
218–220): covered / (covered + missed) * 100, or 0 when the total is 0 (or
negative, impossible for genuine reports). -/
def jcalc (c : Int × Int) : ℚ :=
  if 0 < c.1 + c.2 then (c.1 : ℚ) / ((c.1 : ℚ) + (c.2 : ℚ)) * 100 else 0

/-- The dictionary returned by `_parse_jacoco` (`evaluation.py` lines
229–234). -/
structure JacocoResult where
  line_coverage : ℚ
  branch_coverage : ℚ
  instruction_coverage : ℚ
  method_coverage : ℚ
deriving DecidableEq, Repr

/-- Model of `EvaluationPhase._parse_jacoco` (`evaluation.py` lines
186–237) on an already-parsed XML tree: aggregate the counters of the
matching class elements, then convert each kind to a percentage, preferring
LINE but substituting INSTRUCTION when LINE is 0 (line 227). -/
def parse_jacoco (report : JacocoReport) (target_class : String) : JacocoResult :=
  let tp := targetPathOf target_class
  let d := collectCounters report tp
  let line_cov := jcalc (countersGet d "LINE")
  let instr_cov := jcalc (countersGet d "INSTRUCTION")
  let final_cov := if line_cov > 0 then line_cov else instr_cov
  { line_coverage := final_cov
    branch_coverage := jcalc (countersGet d "BRANCH")
    instruction_coverage := instr_cov
    method_coverage := jcalc (countersGet d "METHOD") }

/-- The `found` flag of `_parse_jacoco` (`evaluation.py` lines 195–204):
true iff some class element matches the target.  The mismatch warning of
lines 213–216 is printed exactly when this is false. -/
def jacocoFound (report : JacocoReport) (target_class : String) : Bool :=
  report.classes.any (fun c => classMatches (targetPathOf target_class) c.name)

/-- Specification-side aggregation: componentwise sum of the (covered,
missed) attributes of the counters of a given kind. -/
def sumKind : List JCounter → String → Int × Int
  | [], _ => (0, 0)
  | c :: rest, kind =>
    let s := sumKind rest kind
    if c.ctype = kind then (c.covered + s.1, c.missed + s.2) else s

/-- All counters belonging to class elements matching the target path, in
report order. -/
def matchingCountersOf (classes : List JClass) (tp : String) : List JCounter :=
  match classes with
  | [] => []
  | cls :: rest =>
    if classMatches tp cls.name then cls.counters ++ matchingCountersOf rest tp
    else matchingCountersOf rest tp

/-- Specification-side per-kind aggregate for a report and target class. -/
def jacocoAgg (report : JacocoReport) (target_class : String) (kind : String) : Int × Int :=
  sumKind (matchingCountersOf report.classes (targetPathOf target_class)) kind

theorem hasKey_cons (p : String × Int × Int) (d : CountersDict) (k : String) :
    hasKey (p :: d) k = (p.1 == k || hasKey d k) := rfl

theorem countersGet_cons (p : String × Int × Int) (d : CountersDict) (kind : String) :
    countersGet (p :: d) kind = if p.1 = kind then p.2 else countersGet d kind := rfl

theorem sumKind_cons (c : JCounter) (rest : List JCounter) (kind : String) :
    sumKind (c :: rest) kind =
      if c.ctype = kind then
        (c.covered + (sumKind rest kind).1, c.missed + (sumKind rest kind).2)
      else sumKind rest kind := rfl

theorem countersGet_not_hasKey (kind : String) :
    ∀ d : CountersDict, hasKey d kind = false → countersGet d kind = (0, 0) := by
  intro d
  induction d with
  | nil => intro _; rfl
  | cons p rest ih =>
    intro h
    rw [hasKey_cons, Bool.or_eq_false_iff] at h
    rw [countersGet_cons]
    simp only [if_neg (beq_eq_false_iff_ne.mp h.1)]
    exact ih h.2

theorem hasKey_append (k : String) :
    ∀ d₁ d₂ : CountersDict, hasKey (d₁ ++ d₂) k = (hasKey d₁ k || hasKey d₂ k) := by
  intro d₁ d₂
  induction d₁ with
  | nil => simp [hasKey]
  | cons p rest ih =>
    rw [List.cons_append, hasKey_cons, hasKey_cons, ih, Bool.or_assoc]

theorem countersGet_append (kind : String) :
    ∀ d₁ d₂ : CountersDict,
      countersGet (d₁ ++ d₂) kind =
        if hasKey d₁ kind then countersGet d₁ kind else countersGet d₂ kind := by
  intro d₁ d₂
  induction d₁ with
  | nil => simp [hasKey, countersGet]
  | cons p rest ih =>
    rw [List.cons_append, countersGet_cons, countersGet_cons, hasKey_cons]
    by_cases hp : p.1 = kind
    · have hc : (p.1 == kind || hasKey rest kind) = true := by
        rw [beq_iff_eq.mpr hp, Bool.true_or]
      simp only [if_pos hp, if_pos hc]
    · rw [beq_eq_false_iff_ne.mpr hp, Bool.false_or]
      simp only [if_neg hp]
      rw [ih]

theorem countersGet_map_bump (c : JCounter) (kind : String) :
    ∀ d : CountersDict,
      countersGet (d.map (bumpCounter c)) kind =
        if c.ctype = kind ∧ hasKey d kind = true then
          ((countersGet d kind).1 + c.covered, (countersGet d kind).2 + c.missed)
        else countersGet d kind := by
  intro d
  induction d with
  | nil => simp [countersGet, hasKey]
  | cons p rest ih =>
    rw [List.map_cons, countersGet_cons, countersGet_cons, hasKey_cons]
    by_cases hpc : p.1 = c.ctype
    · have hbk : bumpCounter c p = (p.1, p.2.1 + c.covered, p.2.2 + c.missed) := by
        unfold bumpCounter
        rw [if_pos (beq_iff_eq.mpr hpc)]
      rw [hbk]
      dsimp only
      by_cases hp : p.1 = kind
      · have hck : c.ctype = kind := hpc.symm.trans hp
        have hc : c.ctype = kind ∧ (p.1 == kind || hasKey rest kind) = true :=
          ⟨hck, by rw [beq_iff_eq.mpr hp, Bool.true_or]⟩
        simp only [if_pos hp, if_pos hc]
      · have hck : ¬ c.ctype = kind := fun h => hp (hpc.trans h)
        simp only [if_neg hp, if_neg (fun h : _ ∧ _ => hck h.1)]
        rw [ih]
        simp only [if_neg (fun h : _ ∧ _ => hck h.1)]
    · have hbump : bumpCounter c p = p := by
        unfold bumpCounter
        rw [if_neg (by simpa using hpc)]
      rw [hbump]
      by_cases hp : p.1 = kind
      · have hck : ¬ c.ctype = kind := fun h => hpc (hp.trans h.symm)
        simp only [if_pos hp, if_neg (fun h : _ ∧ _ => hck h.1)]
      · rw [beq_eq_false_iff_ne.mpr hp, Bool.false_or]
        simp only [if_neg hp]
        rw [ih]

theorem countersGet_singleton (k : String) (a b : Int) (kind : String) :
    countersGet [(k, a, b)] kind = if k = kind then (a, b) else (0, 0) := rfl

theorem countersGet_addCounter (d : CountersDict) (c : JCounter) (kind : String) :
    countersGet (addCounter d c) kind =
      if c.ctype = kind then
        ((countersGet d kind).1 + c.covered, (countersGet d kind).2 + c.missed)
      else countersGet d kind := by
  unfold addCounter
  by_cases hmem : hasKey d c.ctype = true
  · simp only [if_pos hmem]
    rw [countersGet_map_bump]
    by_cases hck : c.ctype = kind
    · simp only [if_pos (And.intro hck (hck ▸ hmem)), if_pos hck]
    · simp only [if_neg (fun h : _ ∧ _ => hck h.1), if_neg hck]
  · have hmem' : hasKey d c.ctype = false := by simpa using hmem
    simp only [if_neg hmem]
    rw [countersGet_map_bump, countersGet_append, hasKey_append]
    by_cases hck : c.ctype = kind
    · subst hck
      have h1 : hasKey [(c.ctype, (0 : Int), (0 : Int))] c.ctype = true := by
        rw [hasKey_cons]
        simp
      have hzero : countersGet d c.ctype = (0, 0) :=
        countersGet_not_hasKey c.ctype d hmem'
      rw [hmem', Bool.false_or, h1]
      have hfalse : ¬ (false = true) := by simp
      have hsing : countersGet [(c.ctype, (0 : Int), (0 : Int))] c.ctype = (0, 0) := by
        rw [countersGet_singleton, if_pos rfl]
      simp only [if_pos rfl, if_pos (And.intro rfl rfl), if_neg hfalse, hsing, hzero]
      simp
    · have h1 : hasKey [(c.ctype, (0 : Int), (0 : Int))] kind = false := by
        rw [hasKey_cons]
        simp [beq_eq_false_iff_ne.mpr hck, hasKey]
      rw [h1, Bool.or_false]
      simp only [if_neg (fun h : _ ∧ _ => hck h.1), if_neg hck]
      by_cases hk : hasKey d kind = true
      · simp only [if_pos hk]
      · simp only [if_neg hk]
        rw [countersGet_not_hasKey kind d (by simpa using hk), countersGet_singleton]
        simp only [if_neg hck]

theorem sumKind_append (kind : String) :
    ∀ l₁ l₂ : List JCounter,
      sumKind (l₁ ++ l₂) kind =
        ((sumKind l₁ kind).1 + (sumKind l₂ kind).1,
         (sumKind l₁ kind).2 + (sumKind l₂ kind).2) := by
  intro l₁ l₂
  induction l₁ with
  | nil => simp [sumKind]
  | cons c rest ih =>
    rw [List.cons_append, sumKind_cons, sumKind_cons]
    by_cases hck : c.ctype = kind
    · simp only [if_pos hck]
      rw [ih]
      simp only [Prod.mk.injEq]
      constructor <;> omega
    · simp only [if_neg hck]
      exact ih

theorem countersGet_foldl_add (kind : String) :
    ∀ (l : List JCounter) (d : CountersDict),
      countersGet (l.foldl addCounter d) kind =
        ((countersGet d kind).1 + (sumKind l kind).1,
         (countersGet d kind).2 + (sumKind l kind).2) := by
  intro l
  induction l with
  | nil => intro d; simp [sumKind]
  | cons c rest ih =>
    intro d
    rw [List.foldl_cons, ih, countersGet_addCounter, sumKind_cons]
    by_cases hck : c.ctype = kind
    · simp only [if_pos hck]
      simp only [Prod.mk.injEq]
      constructor <;> omega
    · simp only [if_neg hck]

theorem matchingCountersOf_cons (cls : JClass) (rest : List JClass) (tp : String) :
    matchingCountersOf (cls :: rest) tp =
      if classMatches tp cls.name then cls.counters ++ matchingCountersOf rest tp
      else matchingCountersOf rest tp := rfl

theorem countersGet_collect_go (kind tp : String) :
    ∀ (classes : List JClass) (d : CountersDict),
      countersGet
          (classes.foldl
            (fun d cls =>
              if classMatches tp cls.name then cls.counters.foldl addCounter d else d)
            d) kind =
        ((countersGet d kind).1 + (sumKind (matchingCountersOf classes tp) kind).1,
         (countersGet d kind).2 + (sumKind (matchingCountersOf classes tp) kind).2) := by
  intro classes
  induction classes with
  | nil => intro d; simp [matchingCountersOf, sumKind]
  | cons cls rest ih =>
    intro d
    rw [List.foldl_cons, matchingCountersOf_cons]
    by_cases hm : classMatches tp cls.name = true
    · simp only [if_pos hm]
      rw [ih, countersGet_foldl_add, sumKind_append]
      simp only [Prod.mk.injEq]
      constructor <;> omega
    · simp only [if_neg hm]
      exact ih d

theorem countersGet_init (kind : String) : countersGet countersInit kind = (0, 0) := by
  unfold countersInit
  rw [countersGet_cons, countersGet_cons]
  split_ifs <;> rfl

/-- The imperative counters-dictionary fold of `_parse_jacoco` computes
exactly the per-kind componentwise sum over the counters of the matching
class elements. -/
theorem countersGet_collect (report : JacocoReport) (tp kind : String) :
    countersGet (collectCounters report tp) kind =
      sumKind (matchingCountersOf report.classes tp) kind := by
  unfold collectCounters
  rw [countersGet_collect_go, countersGet_init]
  simp

/-- Field-level description of `_parse_jacoco`: every field is the
percentage of the per-kind aggregate, with the LINE/INSTRUCTION fallback on
the `line_coverage` field. -/
theorem parse_jacoco_eq (report : JacocoReport) (target_class : String) :
    parse_jacoco report target_class =
      { line_coverage :=
          if jcalc (jacocoAgg report target_class "LINE") > 0 then
            jcalc (jacocoAgg report target_class "LINE")
          else jcalc (jacocoAgg report target_class "INSTRUCTION")
        branch_coverage := jcalc (jacocoAgg report target_class "BRANCH")
        instruction_coverage := jcalc (jacocoAgg report target_class "INSTRUCTION")
        method_coverage := jcalc (jacocoAgg report target_class "METHOD") } := by
  simp only [parse_jacoco, jacocoAgg, countersGet_collect]

/-- Synthetic JaCoCo report: target class present with a LINE counter of
covered = 8, missed = 2. -/
def repLine82 : JacocoReport :=
  { classes := [{ name := "com/example/Target"
                  counters := [{ ctype := "LINE", covered := 8, missed := 2 }] }] }

/-- Synthetic JaCoCo report in which no class element matches the target
class. -/
def repOtherClass : JacocoReport :=
  { classes := [{ name := "com/example/Other"
                  counters := [{ ctype := "LINE", covered := 8, missed := 2 }] }] }

/-- C5: coverage parsing aggregates covered/missed per counter kind and
converts to `covered / (covered + missed) * 100` with 0 on a zero
denominator; a report whose target class has a LINE counter (8, 2) yields
`line_coverage = 80`; a report with no matching class yields
`line_coverage = 0` and the `found` flag false, which triggers the mismatch
warning (the parser is a total function, so it cannot raise). -/
theorem coverage_parsing_correct (report : JacocoReport) (target_class : String) :
    (parse_jacoco report target_class).branch_coverage =
        jcalc (jacocoAgg report target_class "BRANCH") ∧
    (parse_jacoco report target_class).instruction_coverage =
        jcalc (jacocoAgg report target_class "INSTRUCTION") ∧
    (parse_jacoco report target_class).method_coverage =
        jcalc (jacocoAgg report target_class "METHOD") ∧
    (∀ covered missed : Int,
      jcalc (covered, missed) =
        if 0 < covered + missed then
          (covered : ℚ) / ((covered : ℚ) + (missed : ℚ)) * 100
        else 0) ∧
    (parse_jacoco repLine82 "com.example.Target").line_coverage = 80 ∧
    (parse_jacoco repOtherClass "com.example.Target").line_coverage = 0 ∧
    jacocoFound repOtherClass "com.example.Target" = false := by
  refine ⟨?_, ?_, ?_, ?_, ?_, ?_, ?_⟩
  · rw [parse_jacoco_eq]
  · rw [parse_jacoco_eq]
  · rw [parse_jacoco_eq]
  · intro covered missed; rfl
  · rw [parse_jacoco_eq]
    have hL : jacocoAgg repLine82 "com.example.Target" "LINE" = (8, 2) := by decide
    rw [hL]
    norm_num [jcalc]
  · rw [parse_jacoco_eq]
    have hL : jacocoAgg repOtherClass "com.example.Target" "LINE" = (0, 0) := by decide
    have hI : jacocoAgg repOtherClass "com.example.Target" "INSTRUCTION" = (0, 0) := by
      decide
    rw [hL, hI]
    norm_num [jcalc]
  · decide

/-- Synthetic report whose target class has LINE (0, 10) — resolving to 0 —
and INSTRUCTION (5, 5). -/
def repLineZero : JacocoReport :=
  { classes := [{ name := "X"
                  counters := [{ ctype := "LINE", covered := 0, missed := 10 },
                               { ctype := "INSTRUCTION", covered := 5, missed := 5 }] }] }

/-- Synthetic report whose target class has LINE (5, 5) — resolving to 50 —
and INSTRUCTION (5, 5). -/
def repLineUsed : JacocoReport :=
  { classes := [{ name := "X"
                  counters := [{ ctype := "LINE", covered := 5, missed := 5 },
                               { ctype := "INSTRUCTION", covered := 5, missed := 5 }] }] }

/-- C6, amended: when LINE coverage resolves to 0 and INSTRUCTION coverage
is nonzero, the reported `line_coverage` equals the INSTRUCTION coverage
value, and the record separately carries `instruction_coverage`; but no
field records which metric was used (see the counterexample). -/
theorem line_coverage_fallback (report : JacocoReport) (target_class : String)
    (h0 : jcalc (jacocoAgg report target_class "LINE") = 0)
    (h1 : jcalc (jacocoAgg report target_class "INSTRUCTION") ≠ 0) :
    (parse_jacoco report target_class).line_coverage =
      jcalc (jacocoAgg report target_class "INSTRUCTION") ∧
    (parse_jacoco report target_class).instruction_coverage =
      jcalc (jacocoAgg report target_class "INSTRUCTION") := by
  constructor
  · simp only [parse_jacoco_eq]
    rw [h0]
    norm_num
  · simp only [parse_jacoco_eq]

/-- Witness for C6 (amended): on a report with LINE (0, 10) and INSTRUCTION
(5, 5) the fallback reports the INSTRUCTION value. -/
theorem line_coverage_fallback_witness :
    (parse_jacoco repLineZero "X").line_coverage =
      jcalc (jacocoAgg repLineZero "X" "INSTRUCTION") :=
  (line_coverage_fallback repLineZero "X"
    (by rw [show jacocoAgg repLineZero "X" "LINE" = (0, 10) from by decide]
        norm_num [jcalc])
    (by rw [show jacocoAgg repLineZero "X" "INSTRUCTION" = (5, 5) from by decide]
        norm_num [jcalc])).1

/-- Counterexample for C6 as stated: the returned record does not record
which metric was used.  A report where LINE itself is 50 and a report where
LINE is 0 and INSTRUCTION 50 produce identical result records, so no field
of the output distinguishes the LINE case from the INSTRUCTION-fallback
case — the substitution is silent. -/
theorem line_fallback_untagged :
    parse_jacoco repLineUsed "X" = parse_jacoco repLineZero "X" ∧
    jcalc (jacocoAgg repLineUsed "X" "LINE") > 0 ∧
    jcalc (jacocoAgg repLineZero "X" "LINE") = 0 ∧
    jcalc (jacocoAgg repLineZero "X" "INSTRUCTION") ≠ 0 := by
  have hUL : jacocoAgg repLineUsed "X" "LINE" = (5, 5) := by decide
  have hUI : jacocoAgg repLineUsed "X" "INSTRUCTION" = (5, 5) := by decide
  have hUB : jacocoAgg repLineUsed "X" "BRANCH" = (0, 0) := by decide
  have hUM : jacocoAgg repLineUsed "X" "METHOD" = (0, 0) := by decide
  have hZL : jacocoAgg repLineZero "X" "LINE" = (0, 10) := by decide
  have hZI : jacocoAgg repLineZero "X" "INSTRUCTION" = (5, 5) := by decide
  have hZB : jacocoAgg repLineZero "X" "BRANCH" = (0, 0) := by decide
  have hZM : jacocoAgg repLineZero "X" "METHOD" = (0, 0) := by decide
  refine ⟨?_, ?_, ?_, ?_⟩
  · rw [parse_jacoco_eq, parse_jacoco_eq, hUL, hUI, hUB, hUM, hZL, hZI, hZB, hZM]
    norm_num [jcalc, JacocoResult.mk.injEq]
  · rw [hUL]; norm_num [jcalc]
  · rw [hZL]; norm_num [jcalc]
  · rw [hZI]; norm_num [jcalc]

/-- One `<mutation>` element of a PIT `mutations.xml` report: its `status`
attribute. -/
structure PMutation where
  status : String
deriving DecidableEq, Repr

/-- Model of `EvaluationPhase._parse_pit` (`evaluation.py` lines 239–251):
the standard kill-ratio definition, killed / total * 100, and 0 when there
are no mutations. -/
def parse_pit (muts : List PMutation) : ℚ :=
  let total := muts.length
  let killed := (muts.filter (fun m => m.status == "KILLED")).length
  if 0 < total then (killed : ℚ) / (total : ℚ) * 100 else 0

/-- Python's `str.upper()` as a character map (exact for the ASCII status
strings PIT emits). -/
def pyUpper (s : String) : String :=
  String.mk (s.toList.map Char.toUpper)

/-- The mutant counters accumulated by
`MetricsEvaluator.measure_mutation_score_pit`
(`scripts/pipeline/phase4_evaluation.py` lines 341–355). -/
structure PitTally where
  total : Nat
  killed : Nat
  survived : Nat
  no_coverage : Nat
deriving DecidableEq, Repr

/-- Body of the mutation-counting loop (`phase4_evaluation.py` lines
346–355): increment the total, then the counter matching the upper-cased
status. -/
def pitTallyStep (t : PitTally) (m : PMutation) : PitTally :=
  let t := { t with total := t.total + 1 }
  let status := pyUpper m.status
  if status == "KILLED" then { t with killed := t.killed + 1 }
  else if status == "SURVIVED" then { t with survived := t.survived + 1 }
  else if status == "NO_COVERAGE" then { t with no_coverage := t.no_coverage + 1 }
  else t

/-- Counting loop over all `<mutation>` elements. -/
def pitTally (muts : List PMutation) : PitTally :=
  muts.foldl pitTallyStep { total := 0, killed := 0, survived := 0, no_coverage := 0 }

/-- Round half to even (banker's rounding), the behaviour of Python's
built-in `round` on the fractional part (float representation effects
aside). -/
def roundHalfEven (q : ℚ) : Int :=
  let f := ⌊q⌋
  let r := q - f
  if r < 1 / 2 then f
  else if r > 1 / 2 then f + 1
  else if f % 2 = 0 then f else f + 1

/-- Python's `round(x, 2)`. -/
def round2 (q : ℚ) : ℚ :=
  (roundHalfEven (q * 100) : ℚ) / 100

/-- The PIT-reported line-coverage scan (`phase4_evaluation.py` lines
363–370): the percentage of the first `<line-coverage>` counter with a
positive total, 0 when none qualifies. -/
def pitLineCov : List (Int × Int) → ℚ
  | [] => 0
  | (covered, total) :: rest =>
    if 0 < total then (covered : ℚ) / (total : ℚ) * 100 else pitLineCov rest

/-- The result dictionary of `measure_mutation_score_pit`
(`phase4_evaluation.py` lines 372–380). -/
structure PitStats where
  mutation_score : ℚ
  mutants_killed : Nat
  mutants_survived : Nat
  mutants_no_coverage : Nat
  total_mutants : Nat
  testable_mutants : Int
  line_coverage : ℚ
deriving DecidableEq, Repr

/-- Model of the XML-parsing core of
`MetricsEvaluator.measure_mutation_score_pit` (`phase4_evaluation.py` lines
341–380): count mutants by status, use the testable-mutant kill-ratio
definition killed / (total − no_coverage) * 100 (0 when the denominator is
not positive), and report all counters alongside the rounded score. -/
def measure_mutation_score_pit (muts : List PMutation)
    (lineCounters : List (Int × Int)) : PitStats :=
  let t := pitTally muts
  let testable_mutants : Int := (t.total : Int) - (t.no_coverage : Int)
  let mutation_score : ℚ :=
    if 0 < testable_mutants then (t.killed : ℚ) / (testable_mutants : ℚ) * 100 else 0
  { mutation_score := round2 mutation_score
    mutants_killed := t.killed
    mutants_survived := t.survived
    mutants_no_coverage := t.no_coverage
    total_mutants := t.total
    testable_mutants := testable_mutants
    line_coverage := round2 (pitLineCov lineCounters) }

/-- Synthetic mutation list: 10 mutations, 7 KILLED, 2 SURVIVED,
1 NO_COVERAGE. -/
def muts10 : List PMutation :=
  List.replicate 7 { status := "KILLED" } ++
    List.replicate 2 { status := "SURVIVED" } ++ [{ status := "NO_COVERAGE" }]

/-- C7: both kill-ratio definitions are computed by the repository and are
distinguishable: on the 7/2/1 synthetic report the standard definition
(`_parse_pit`) yields 70 and the testable-mutant definition
(`measure_mutation_score_pit`) yields round(700/9, 2) = 77.78, with the
counters that make both definitions recomputable present in the output, and
0 returned by each definition when its denominator is 0. -/
theorem mutation_score_definitions :
    parse_pit muts10 = 70 ∧
    (measure_mutation_score_pit muts10 []).mutation_score = 7778 / 100 ∧
    (measure_mutation_score_pit muts10 []).mutants_killed = 7 ∧
    (measure_mutation_score_pit muts10 []).mutants_survived = 2 ∧
    (measure_mutation_score_pit muts10 []).mutants_no_coverage = 1 ∧
    (measure_mutation_score_pit muts10 []).total_mutants = 10 ∧
    (measure_mutation_score_pit muts10 []).testable_mutants = 9 ∧
    parse_pit [] = 0 ∧
    PitStats.mutation_score
      (measure_mutation_score_pit (List.replicate 3 { status := "NO_COVERAGE" }) []) = 0 := by
  have ht : pitTally muts10 = { total := 10, killed := 7, survived := 2, no_coverage := 1 } := by
    decide
  have hk : (muts10.filter (fun m => m.status == "KILLED")).length = 7 := by decide
  have hn : muts10.length = 10 := by decide
  have ht3 : pitTally (List.replicate 3 { status := "NO_COVERAGE" }) =
      { total := 3, killed := 0, survived := 0, no_coverage := 3 } := by decide
  refine ⟨?_, ?_, ?_, ?_, ?_, ?_, ?_, ?_, ?_⟩
  · simp only [parse_pit, hk, hn]
    norm_num
  · simp only [measure_mutation_score_pit, ht]
    norm_num [round2, roundHalfEven]
  · simp only [measure_mutation_score_pit, ht]
  · simp only [measure_mutation_score_pit, ht]
  · simp only [measure_mutation_score_pit, ht]
  · simp only [measure_mutation_score_pit, ht]
  · simp only [measure_mutation_score_pit, ht]
    norm_num
  · rfl
  · simp only [measure_mutation_score_pit, ht3]
    norm_num [round2, roundHalfEven]

/-- Arithmetic mean (`np.mean`) of a metric vector. -/
def mean (l : List ℚ) : ℚ :=
  l.sum / l.length

/-- The improvement computation of `MetricsEvaluator.compute_statistics`
(`scripts/pipeline/phase4_evaluation.py` lines 456–458):
`(valid_mean - baseline_mean) / baseline_mean * 100` when the baseline mean
is positive, else 0. -/
def improvement_pct (baseline_vals valid_vals : List ℚ) : ℚ :=
  let baseline_mean := mean baseline_vals
  let valid_mean := mean valid_vals
  if baseline_mean > 0 then (valid_mean - baseline_mean) / baseline_mean * 100 else 0

/-- Average rank (the `scipy.stats.rankdata` convention) of a value within
a list: one plus the number of strictly smaller elements, averaged over the
block of ties. -/
def rankOf (l : List ℚ) (v : ℚ) : ℚ :=
  ((l.countP (fun a => decide (a < v)) : ℚ)) +
    (((l.countP (fun a => a == v) : ℚ)) + 1) / 2

/-- Model of `AnalysisPhase._vargha_delaney` (`analysis.py` lines 266–287):
rank the concatenation `x + y`, sum the ranks of the first `m` entries
(the entries of `x`), and return `(r1 / m - (m + 1) / 2) / n`.  Tied values
receive identical average ranks, so the sum of the ranks at x's positions
equals the sum of `rankOf` over x's values. -/
def vargha_delaney (x y : List ℚ) : ℚ :=
  let m : ℚ := x.length
  let n : ℚ := y.length
  let r := x ++ y
  let r1 := (x.map (rankOf r)).sum
  (r1 / m - (m + 1) / 2) / n

/-- C8: on baseline [10, 20, 30] and refined [15, 25, 35] the comparator's
improvement is +25 (and 0 on a zero-mean baseline), but the effect size it
computes is 1/3, not greater than 1/2: `_vargha_delaney(x, y)` is called
with x = baseline and returns the probability that a baseline draw exceeds
a refined draw, contradicting its own docstring ("A12 > 0.5 means y is
stochastically larger than x") and the specification. -/
theorem statistical_comparator_failing_input :
    improvement_pct [10, 20, 30] [15, 25, 35] = 25 ∧
    improvement_pct [0, 0, 0] [5, 5, 5] = 0 ∧
    vargha_delaney [10, 20, 30] [15, 25, 35] = 1 / 3 ∧
    ¬ vargha_delaney [10, 20, 30] [15, 25, 35] > 1 / 2 := by
  refine ⟨?_, ?_, ?_, ?_⟩ <;>
    norm_num [improvement_pct, mean, vargha_delaney, rankOf, List.countP_cons,
      List.countP_nil, decide_eq_true_eq]

/-- The metrics dictionary built by `EvaluationPhase._measure_metrics`:
string keys to numeric (float) values, insertion-ordered. -/
abbrev MetricsDict := List (String × ℚ)

/-- Python's `key in dict` on a metrics dictionary. -/
def dhasKey (d : MetricsDict) (k : String) : Bool :=
  match d with
  | [] => false
  | p :: rest => p.1 == k || dhasKey rest k

/-- Python's `dict[key]` read, `none` when the key is absent. -/
def dget (d : MetricsDict) (k : String) : Option ℚ :=
  match d with
  | [] => none
  | p :: rest => if p.1 = k then some p.2 else dget rest k

/-- Python's `dict[key] = value`: overwrite in place when present, append
otherwise. -/
def dset (d : MetricsDict) (k : String) (v : ℚ) : MetricsDict :=
  if dhasKey d k then d.map (fun p => if p.1 = k then (k, v) else p)
  else d ++ [(k, v)]

/-- Python's `dict.update(other)`: set every key of `other` in order. -/
def dupdate (d e : MetricsDict) : MetricsDict :=
  e.foldl (fun acc p => dset acc p.1 p.2) d

/-- The fixed-key dictionary produced by `CodeMetricsAnalyzer.analyze`
(`src/gspo_utg/utils/code_metrics.py` lines 16–39 plus the readability keys
of lines 134 and 146).  The numeric values depend on the analysed source
file, which is external input; the key set is fixed by the source. -/
structure CodeMetrics where
  sloc : Int
  cyclomatic_complexity : Int
  internal_dependencies : Int
  external_dependencies : Int
  std_lib_dependencies : Int
  comment_lines : Int
  javadoc_lines : Int
  switch_conditions : Int
  static_calls : Int
  std_lib_calls : Int
  type_checks : Int
  null_checks : Int
  string_ops : Int
  primitive_conditions : Int
  collections_usage : Int
  avg_identifier_length : ℚ
  max_nesting_depth : Int
deriving DecidableEq, Repr

/-- The analyzer dictionary in its insertion order. -/
def codeMetricsDict (cm : CodeMetrics) : MetricsDict :=
  [("sloc", (cm.sloc : ℚ)),
   ("cyclomatic_complexity", (cm.cyclomatic_complexity : ℚ)),
   ("internal_dependencies", (cm.internal_dependencies : ℚ)),
   ("external_dependencies", (cm.external_dependencies : ℚ)),
   ("std_lib_dependencies", (cm.std_lib_dependencies : ℚ)),
   ("comment_lines", (cm.comment_lines : ℚ)),
   ("javadoc_lines", (cm.javadoc_lines : ℚ)),
   ("switch_conditions", (cm.switch_conditions : ℚ)),
   ("static_calls", (cm.static_calls : ℚ)),
   ("std_lib_calls", (cm.std_lib_calls : ℚ)),
   ("type_checks", (cm.type_checks : ℚ)),
   ("null_checks", (cm.null_checks : ℚ)),
   ("string_ops", (cm.string_ops : ℚ)),
   ("primitive_conditions", (cm.primitive_conditions : ℚ)),
   ("collections_usage", (cm.collections_usage : ℚ)),
   ("avg_identifier_length", cm.avg_identifier_length),
   ("max_nesting_depth", (cm.max_nesting_depth : ℚ))]

/-- Environment for `EvaluationPhase._measure_metrics` (`evaluation.py`
lines 59–166): the observable results of its external interactions.
`codeMetrics` is the analyzer output when a source file was found (`none`
when no file was found or the analyzer returned the empty dictionary);
`compileRes` is the test compilation; `instrRes`, `runRes` and `reportRes`
are results whose failures are only logged; `execFileExists` and
`xmlFileExists` gate the JaCoCo parse of line 135; `jacocoReport` is the
parsed report content; `pitXmlExists` gates the PIT parse of line 164 and
`pitMutations` is its content. -/
structure MeasureEnv where
  codeMetrics : Option CodeMetrics
  compileRes : ProcResult
  instrRes : ProcResult
  runRes : ProcResult
  execFileExists : Bool
  reportRes : ProcResult
  xmlFileExists : Bool
  jacocoReport : JacocoReport
  pitXmlExists : Bool
  pitMutations : List PMutation

/-- Model of `EvaluationPhase._measure_metrics` (`evaluation.py` lines
59–166).  Note line 135 of the source: the JaCoCo parse result is bound to
the local `cov`, which is never read again, mirrored here by the unused
binding. -/
def measure_metrics (env : MeasureEnv) (class_name : String) : MetricsDict :=
  let metrics : MetricsDict :=
    [("compilation_rate", 1), ("line_coverage", 0), ("branch_coverage", 0),
     ("mutation_score", 0), ("failure_reproduction_rate", 0)]
  let metrics :=
    match env.codeMetrics with
    | some cm => dupdate metrics (codeMetricsDict cm)
    | none => metrics
  if env.compileRes.returncode ≠ 0 then
    dset metrics "compilation_rate" 0
  else
    let _cov :=
      if env.execFileExists && env.xmlFileExists then
        some (parse_jacoco env.jacocoReport class_name)
      else none
    let metrics :=
      if env.pitXmlExists then
        dset metrics "mutation_score" (parse_pit env.pitMutations)
      else metrics
    metrics

theorem dget_not_dhasKey (k : String) :
    ∀ d : MetricsDict, dhasKey d k = false → dget d k = none := by
  intro d
  induction d with
  | nil => intro _; rfl
  | cons p rest ih =>
    intro h
    unfold dhasKey at h
    rw [Bool.or_eq_false_iff] at h
    unfold dget
    rw [if_neg (beq_eq_false_iff_ne.mp h.1)]
    exact ih h.2

theorem dget_append (k : String) :
    ∀ d₁ d₂ : MetricsDict,
      dget (d₁ ++ d₂) k = if dhasKey d₁ k then dget d₁ k else dget d₂ k := by
  intro d₁ d₂
  induction d₁ with
  | nil => simp [dhasKey, dget]
  | cons p rest ih =>
    rw [List.cons_append]
    show (if p.1 = k then some p.2 else dget (rest ++ d₂) k) = _
    by_cases hp : p.1 = k
    · have hc : (p.1 == k || dhasKey rest k) = true := by
        rw [beq_iff_eq.mpr hp, Bool.true_or]
      show _ = if (p.1 == k || dhasKey rest k) = true then
          (if p.1 = k then some p.2 else dget rest k) else dget d₂ k
      simp only [if_pos hp, if_pos hc]
    · show _ = if (p.1 == k || dhasKey rest k) = true then
          (if p.1 = k then some p.2 else dget rest k) else dget d₂ k
      rw [beq_eq_false_iff_ne.mpr hp, Bool.false_or]
      simp only [if_neg hp]
      rw [ih]

theorem dhasKey_cons (p : String × ℚ) (rest : MetricsDict) (k : String) :
    dhasKey (p :: rest) k = (p.1 == k || dhasKey rest k) := rfl

theorem dget_cons (p : String × ℚ) (rest : MetricsDict) (k : String) :
    dget (p :: rest) k = if p.1 = k then some p.2 else dget rest k := rfl

theorem dget_overwrite (k : String) (v : ℚ) (k' : String) :
    ∀ d : MetricsDict,
      dget (d.map (fun p => if p.1 = k then (k, v) else p)) k' =
        if k' = k then (if dhasKey d k then some v else none) else dget d k' := by
  intro d
  induction d with
  | nil => simp [dget, dhasKey]
  | cons p rest ih =>
    rw [List.map_cons, dhasKey_cons, dget_cons]
    by_cases hpk : p.1 = k
    · simp only [if_pos hpk]
      rw [dget_cons]
      by_cases hk' : k' = k
      · have hc : (p.1 == k || dhasKey rest k) = true := by
          rw [beq_iff_eq.mpr hpk, Bool.true_or]
        simp only [if_pos hk', if_pos hc, if_pos hk'.symm]
      · have hp' : ¬ p.1 = k' := fun h => hk' ((hpk.symm.trans h).symm)
        have hkk' : ¬ k = k' := fun h => hk' h.symm
        simp only [if_neg hkk', if_neg hk', if_neg hp']
        rw [ih]
        simp only [if_neg hk']
    · simp only [if_neg hpk]
      rw [dget_cons]
      by_cases hk' : k' = k
      · have hp' : ¬ p.1 = k' := fun h => hpk (h.trans hk')
        rw [beq_eq_false_iff_ne.mpr hpk, Bool.false_or]
        simp only [if_neg hp', if_pos hk']
        rw [ih]
        simp only [if_pos hk']
      · simp only [if_neg hk']
        by_cases hp' : p.1 = k'
        · simp only [if_pos hp']
        · simp only [if_neg hp']
          rw [ih]
          simp only [if_neg hk']

/-- Effect of a dictionary write on a later read. -/
theorem dget_dset (d : MetricsDict) (k : String) (v : ℚ) (k' : String) :
    dget (dset d k v) k' = if k' = k then some v else dget d k' := by
  unfold dset
  by_cases hm : dhasKey d k = true
  · rw [if_pos hm, dget_overwrite]
    by_cases hk' : k' = k
    · simp only [if_pos hk', if_pos hm]
    · simp only [if_neg hk']
  · rw [if_neg hm, dget_append]
    by_cases hk' : k' = k
    · have hm' : ¬ dhasKey d k' = true := by rw [hk']; exact hm
      rw [if_neg hm']
      show (if k = k' then some v else none) = _
      rw [if_pos hk'.symm, if_pos hk']
    · by_cases hd : dhasKey d k' = true
      · simp only [if_pos hd, if_neg hk']
      · rw [if_neg hd, dget_not_dhasKey k' d (by simpa using hd)]
        simp only [if_neg hk']
        show (if k = k' then some v else none) = none
        rw [if_neg (fun h => hk' h.symm)]

/-- An update whose keys avoid `k'` leaves the value at `k'` unchanged. -/
theorem dget_dupdate_not_mem (k' : String) :
    ∀ (e d : MetricsDict), (e.map Prod.fst).all (fun s => !(s == k')) = true →
      dget (dupdate d e) k' = dget d k' := by
  intro e
  induction e with
  | nil => intro d _; rfl
  | cons p rest ih =>
    intro d h
    rw [List.map_cons, List.all_cons, Bool.and_eq_true] at h
    have hne : ¬ (k' = p.1) := by
      intro hk
      rw [Bool.not_eq_true'] at h
      exact absurd (beq_iff_eq.mpr hk.symm) (by rw [h.1]; simp)
    show dget (dupdate (dset d p.1 p.2) rest) k' = dget d k'
    rw [ih (dset d p.1 p.2) h.2, dget_dset]
    simp only [if_neg hne]

/-- C2: the coverage values parsed from the JaCoCo report never reach the
returned metrics record.  In every environment and for every class name the
returned dictionary has `line_coverage` and `branch_coverage` still at
their initial 0.0, and carries no `instruction_coverage` or
`method_coverage` entry at all. -/
theorem coverage_never_written (env : MeasureEnv) (class_name : String) :
    dget (measure_metrics env class_name) "line_coverage" = some 0 ∧
    dget (measure_metrics env class_name) "branch_coverage" = some 0 ∧
    dget (measure_metrics env class_name) "instruction_coverage" = none ∧
    dget (measure_metrics env class_name) "method_coverage" = none := by
  have base :
      ∀ k', dget (match env.codeMetrics with
        | some cm => dupdate
            [("compilation_rate", 1), ("line_coverage", 0), ("branch_coverage", 0),
             ("mutation_score", 0), ("failure_reproduction_rate", 0)] (codeMetricsDict cm)
        | none =>
            [("compilation_rate", 1), ("line_coverage", 0), ("branch_coverage", 0),
             ("mutation_score", 0), ("failure_reproduction_rate", 0)]) k' =
        dget [("compilation_rate", 1), ("line_coverage", 0), ("branch_coverage", 0),
             ("mutation_score", 0), ("failure_reproduction_rate", 0)] k' ∨
      (∃ cm, env.codeMetrics = some cm ∧
        ((codeMetricsDict cm).map Prod.fst).all (fun s => !(s == k')) = false) := by
    intro k'
    match hcm : env.codeMetrics with
    | none => exact Or.inl rfl
    | some cm =>
      by_cases hall : ((codeMetricsDict cm).map Prod.fst).all (fun s => !(s == k')) = true
      · exact Or.inl (dget_dupdate_not_mem k' (codeMetricsDict cm) _ hall)
      · exact Or.inr ⟨cm, rfl, by simpa using hall⟩
  have hkeys : ∀ cm : CodeMetrics, (codeMetricsDict cm).map Prod.fst =
      ["sloc", "cyclomatic_complexity", "internal_dependencies", "external_dependencies",
       "std_lib_dependencies", "comment_lines", "javadoc_lines", "switch_conditions",
       "static_calls", "std_lib_calls", "type_checks", "null_checks", "string_ops",
       "primitive_conditions", "collections_usage", "avg_identifier_length",
       "max_nesting_depth"] := fun _ => rfl
  have hmain : ∀ k', k' ∈ (["line_coverage", "branch_coverage", "instruction_coverage",
      "method_coverage"] : List String) →
      dget (measure_metrics env class_name) k' =
        if k' = "mutation_score" ∨ k' = "compilation_rate" then
          dget (measure_metrics env class_name) k'
        else dget [("compilation_rate", 1), ("line_coverage", 0), ("branch_coverage", 0),
             ("mutation_score", 0), ("failure_reproduction_rate", 0)] k' := by
    intro k' hk'
    have hnm : ¬ (k' = "mutation_score" ∨ k' = "compilation_rate") := by
      fin_cases hk' <;> decide
    rw [if_neg hnm]
    have hbase := base k'
    rcases hbase with hbase | ⟨cm, hcm, habs⟩
    · unfold measure_metrics
      by_cases hc : env.compileRes.returncode ≠ 0
      · rw [if_pos hc, dget_dset,
          if_neg (fun h : k' = "compilation_rate" => hnm (Or.inr h))]
        exact hbase
      · rw [if_neg hc]
        by_cases hp : env.pitXmlExists = true
        · simp only [if_pos hp]
          rw [dget_dset, if_neg (fun h : k' = "mutation_score" => hnm (Or.inl h))]
          exact hbase
        · simp only [if_neg hp]
          exact hbase
    · exfalso
      rw [hkeys cm] at habs
      fin_cases hk' <;> simp_all
  refine ⟨?_, ?_, ?_, ?_⟩ <;>
    · rw [hmain _ (by decide), if_neg (by decide)]
      rfl

/-- One entry of the refinement-results ledger read by
`VerificationPhase.run` (`verification.py` lines 22–32). -/
structure RefinedEntry where
  project : String
  cls : String
  success : Bool
deriving DecidableEq, Repr

/-- The project record returned by `loader.get_project`: its jar artifacts
and filesystem root. -/
structure ProjectInfo where
  jar_files : List String
  path : String
deriving DecidableEq, Repr

/-- One entry of the verification ledger written by
`VerificationPhase.run` (`verification.py` lines 50–63): the refined entry's
keys plus either `verified = True, oracle_preserved = True` or
`verified = False, error = reason`. -/
structure VRecord where
  project : String
  cls : String
  verified : Bool
  oracle_preserved : Option Bool
  error : Option String
deriving DecidableEq, Repr

/-- Environment for `VerificationPhase.run`: the loader's project
resolution and, per worklist index, the external-call environment of the
`_verify_test` invocation for that item. -/
structure VerificationRunEnv where
  getProject : String → Option ProjectInfo
  verifyEnvs : Nat → VerifyEnv

/-- The worklist loop of `VerificationPhase.run` (`verification.py` lines
30–63): items whose project is missing or has no jar are skipped with only
a log line (`continue`, line 39); the others are verified and appended to
the ledger. -/
def verifRunGo (env : VerificationRunEnv) : Nat → List RefinedEntry → List VRecord
  | _, [] => []
  | i, e :: rest =>
    match env.getProject e.project with
    | none => verifRunGo env (i + 1) rest
    | some project =>
      if project.jar_files.isEmpty then verifRunGo env (i + 1) rest
      else
        let v := verify_test (env.verifyEnvs i)
        (if v.1 then
          { project := e.project, cls := e.cls, verified := true
            oracle_preserved := some true, error := none }
         else
          { project := e.project, cls := e.cls, verified := false
            oracle_preserved := none, error := some v.2 }) :: verifRunGo env (i + 1) rest

/-- Model of `VerificationPhase.run` (`verification.py` lines 16–80):
filter the refinement ledger to the successful entries (`to_verify`,
line 25) and process them in order. -/
def verificationRun (env : VerificationRunEnv) (refined_results : List RefinedEntry) :
    List VRecord :=
  verifRunGo env 1 (refined_results.filter (fun r => r.success))

/-- The SUT artifact of an entry resolves: the loader knows the project and
it has at least one jar. -/
def sutResolvable (env : VerificationRunEnv) (e : RefinedEntry) : Bool :=
  match env.getProject e.project with
  | none => false
  | some p => !p.jar_files.isEmpty

theorem verifRunGo_cons (env : VerificationRunEnv) (i : Nat) (e : RefinedEntry)
    (rest : List RefinedEntry) :
    verifRunGo env i (e :: rest) =
      match env.getProject e.project with
      | none => verifRunGo env (i + 1) rest
      | some project =>
        if project.jar_files.isEmpty then verifRunGo env (i + 1) rest
        else
          (if (verify_test (env.verifyEnvs i)).1 then
            { project := e.project, cls := e.cls, verified := true
              oracle_preserved := some true, error := none }
           else
            { project := e.project, cls := e.cls, verified := false
              oracle_preserved := none,
              error := some (verify_test (env.verifyEnvs i)).2 }) ::
            verifRunGo env (i + 1) rest := rfl

theorem verifRunGo_cons_none (env : VerificationRunEnv) (i : Nat) (e : RefinedEntry)
    (rest : List RefinedEntry) (hp : env.getProject e.project = none) :
    verifRunGo env i (e :: rest) = verifRunGo env (i + 1) rest := by
  rw [verifRunGo_cons, hp]

theorem verifRunGo_cons_some (env : VerificationRunEnv) (i : Nat) (e : RefinedEntry)
    (rest : List RefinedEntry) (project : ProjectInfo)
    (hp : env.getProject e.project = some project) :
    verifRunGo env i (e :: rest) =
      if project.jar_files.isEmpty then verifRunGo env (i + 1) rest
      else
        (if (verify_test (env.verifyEnvs i)).1 then
          { project := e.project, cls := e.cls, verified := true
            oracle_preserved := some true, error := none }
         else
          { project := e.project, cls := e.cls, verified := false
            oracle_preserved := none,
            error := some (verify_test (env.verifyEnvs i)).2 }) ::
          verifRunGo env (i + 1) rest := by
  rw [verifRunGo_cons, hp]

theorem sutResolvable_none (env : VerificationRunEnv) (e : RefinedEntry)
    (hp : env.getProject e.project = none) : sutResolvable env e = false := by
  unfold sutResolvable
  rw [hp]

theorem sutResolvable_some (env : VerificationRunEnv) (e : RefinedEntry)
    (project : ProjectInfo) (hp : env.getProject e.project = some project) :
    sutResolvable env e = !project.jar_files.isEmpty := by
  unfold sutResolvable
  rw [hp]

theorem verifRunGo_keys (env : VerificationRunEnv) :
    ∀ (l : List RefinedEntry) (i : Nat),
      (verifRunGo env i l).map (fun r => (r.project, r.cls)) =
        (l.filter (sutResolvable env)).map (fun e => (e.project, e.cls)) := by
  intro l
  induction l with
  | nil => intro i; rfl
  | cons e rest ih =>
    intro i
    rw [List.filter_cons]
    cases hp : env.getProject e.project with
    | none =>
      rw [verifRunGo_cons_none env i e rest hp, sutResolvable_none env e hp]
      simp only [Bool.false_eq_true, if_false]
      exact ih (i + 1)
    | some project =>
      rw [verifRunGo_cons_some env i e rest project hp,
        sutResolvable_some env e project hp]
      by_cases hj : project.jar_files.isEmpty = true
      · rw [hj]
        simp only [if_pos hj, Bool.not_true, Bool.false_eq_true, if_false]
        exact ih (i + 1)
      · have hj' : project.jar_files.isEmpty = false := by simpa using hj
        rw [hj']
        by_cases hv : (verify_test (env.verifyEnvs i)).1 = true
        · simp [hv, ih (i + 1)]
        · simp [hv, ih (i + 1)]

theorem verifRunGo_annotated (env : VerificationRunEnv) :
    ∀ (l : List RefinedEntry) (i : Nat) (r : VRecord),
      r ∈ verifRunGo env i l → r.verified = true ∨ r.error.isSome = true := by
  intro l
  induction l with
  | nil => intro i r h; cases h
  | cons e rest ih =>
    intro i r h
    cases hp : env.getProject e.project with
    | none =>
      rw [verifRunGo_cons_none env i e rest hp] at h
      exact ih (i + 1) r h
    | some project =>
      rw [verifRunGo_cons_some env i e rest project hp] at h
      by_cases hj : project.jar_files.isEmpty = true
      · rw [if_pos hj] at h
        exact ih (i + 1) r h
      · rw [if_neg hj] at h
        rcases List.mem_cons.mp h with hr | hr
        · by_cases hv : (verify_test (env.verifyEnvs i)).1 = true
          · rw [if_pos hv] at hr
            subst hr
            exact Or.inl rfl
          · rw [if_neg hv] at hr
            subst hr
            exact Or.inr rfl
        · exact ih (i + 1) r hr

/-- C9, amended: the verification ledger contains exactly one record, in
order, for every attempted TestCase whose SUT artifact resolves — each
carrying either the verified result or an explicit error reason — but a
TestCase whose SUT artifact cannot be resolved is skipped with only a log
line and does not appear in the ledger at all. -/
theorem verification_ledger_per_entry (env : VerificationRunEnv)
    (refined_results : List RefinedEntry) :
    (verificationRun env refined_results).map (fun r => (r.project, r.cls)) =
      ((refined_results.filter (fun r => r.success)).filter
          (sutResolvable env)).map (fun e => (e.project, e.cls)) ∧
    ∀ r ∈ verificationRun env refined_results,
      r.verified = true ∨ r.error.isSome = true := by
  exact ⟨verifRunGo_keys env _ 1, fun r h => verifRunGo_annotated env _ 1 r h⟩

/-- Refinement ledger with a single successful (attempted) entry. -/
def refEntriesOmit : List RefinedEntry :=
  [{ project := "p", cls := "C", success := true }]

/-- Run environment whose loader resolves no project. -/
def verifEnvUnresolvable : VerificationRunEnv :=
  { getProject := fun _ => none
    verifyEnvs := fun _ => verifyEnvPassPass }

/-- Run environment whose loader resolves every project to one with a jar. -/
def verifEnvResolvable : VerificationRunEnv :=
  { getProject := fun _ => some { jar_files := ["sut.jar"], path := "proj" }
    verifyEnvs := fun _ => verifyEnvPassPass }

/-- Counterexample for C9 as stated: one TestCase is attempted (its entry
is in `to_verify`) but its SUT artifact does not resolve, and the output
ledger is empty — the attempted TestCase is silently omitted instead of
appearing with an error annotation. -/
theorem verification_silent_omission :
    (refEntriesOmit.filter (fun r => r.success)).length = 1 ∧
    verificationRun verifEnvUnresolvable refEntriesOmit = [] := by
  constructor
  · decide
  · rfl

/-- Witness for C9 (amended): with a resolvable SUT the single attempted
entry yields exactly one ledger record with its keys. -/
theorem verification_ledger_per_entry_witness :
    (verificationRun verifEnvResolvable refEntriesOmit).map
        (fun r => (r.project, r.cls)) = [("p", "C")] := by
  rw [(verification_ledger_per_entry verifEnvResolvable refEntriesOmit).1]
  rfl

/-- One entry of the metrics ledger written by `EvaluationPhase.run`
(`evaluation.py` lines 45–49): project, class, and the measured metrics
dictionary. -/
structure MRecord where
  project : String
  cls : String
  metrics : MetricsDict
deriving DecidableEq, Repr

/-- Environment for `EvaluationPhase.run`: the loader's project resolution
and, per worklist index, the external environment of the
`_measure_metrics` invocation for that item. -/
structure EvalRunEnv where
  getProject : String → Option ProjectInfo
  measureEnvs : Nat → MeasureEnv

/-- The worklist loop of `EvaluationPhase.run` (`evaluation.py` lines
31–49): an unresolvable project is skipped (`continue`, line 38); a
resolvable project with no jar raises `IndexError` at
`project.jar_files[0]` (line 39), aborting the phase (modelled as `none`);
otherwise one metrics record is appended. -/
def evalRunGo (env : EvalRunEnv) : Nat → List VRecord → Option (List MRecord)
  | _, [] => some []
  | i, item :: rest =>
    match env.getProject item.project with
    | none => evalRunGo env (i + 1) rest
    | some project =>
      match project.jar_files with
      | [] => none
      | _ :: _ =>
        (evalRunGo env (i + 1) rest).map
          (fun ms =>
            { project := item.project, cls := item.cls
              metrics := measure_metrics (env.measureEnvs i) item.cls } :: ms)

/-- Model of `EvaluationPhase.run` (`evaluation.py` lines 17–57): filter
the verification ledger to the entries with `verified` set (line 26) and
process them in order. -/
def evaluationRun (env : EvalRunEnv) (valid_results : List VRecord) :
    Option (List MRecord) :=
  evalRunGo env 1 (valid_results.filter (fun r => r.verified))

theorem evalRunGo_cons (env : EvalRunEnv) (i : Nat) (item : VRecord)
    (rest : List VRecord) :
    evalRunGo env i (item :: rest) =
      match env.getProject item.project with
      | none => evalRunGo env (i + 1) rest
      | some project =>
        match project.jar_files with
        | [] => none
        | _ :: _ =>
          (evalRunGo env (i + 1) rest).map
            (fun ms =>
              { project := item.project, cls := item.cls
                metrics := measure_metrics (env.measureEnvs i) item.cls } :: ms) := rfl

theorem evalRunGo_cons_none (env : EvalRunEnv) (i : Nat) (item : VRecord)
    (rest : List VRecord) (hp : env.getProject item.project = none) :
    evalRunGo env i (item :: rest) = evalRunGo env (i + 1) rest := by
  rw [evalRunGo_cons, hp]

theorem evalRunGo_cons_nojar (env : EvalRunEnv) (i : Nat) (item : VRecord)
    (rest : List VRecord) (project : ProjectInfo)
    (hp : env.getProject item.project = some project)
    (hjar : project.jar_files = []) :
    evalRunGo env i (item :: rest) = none := by
  rw [evalRunGo_cons, hp]
  show (match project.jar_files with
        | [] => none
        | _ :: _ =>
          (evalRunGo env (i + 1) rest).map
            (fun ms =>
              { project := item.project, cls := item.cls
                metrics := measure_metrics (env.measureEnvs i) item.cls } :: ms)) = none
  rw [hjar]

theorem evalRunGo_cons_jar (env : EvalRunEnv) (i : Nat) (item : VRecord)
    (rest : List VRecord) (project : ProjectInfo) (j : String) (js : List String)
    (hp : env.getProject item.project = some project)
    (hjar : project.jar_files = j :: js) :
    evalRunGo env i (item :: rest) =
      (evalRunGo env (i + 1) rest).map
        (fun ms =>
          { project := item.project, cls := item.cls
            metrics := measure_metrics (env.measureEnvs i) item.cls } :: ms) := by
  rw [evalRunGo_cons, hp]
  show (match project.jar_files with
        | [] => none
        | _ :: _ =>
          (evalRunGo env (i + 1) rest).map
            (fun ms =>
              { project := item.project, cls := item.cls
                metrics := measure_metrics (env.measureEnvs i) item.cls } :: ms)) =
      (evalRunGo env (i + 1) rest).map
        (fun ms =>
          { project := item.project, cls := item.cls
            metrics := measure_metrics (env.measureEnvs i) item.cls } :: ms)
  rw [hjar]

theorem evalRunGo_keys (env : EvalRunEnv) :
    ∀ (l : List VRecord) (i : Nat) (ms : List MRecord),
      evalRunGo env i l = some ms →
      ms.map (fun r => (r.project, r.cls)) =
        (l.filter (fun e => (env.getProject e.project).isSome)).map
          (fun e => (e.project, e.cls)) := by
  intro l
  induction l with
  | nil =>
    intro i ms h
    injection h with h'
    subst h'
    rfl
  | cons item rest ih =>
    intro i ms h
    rw [List.filter_cons]
    cases hp : env.getProject item.project with
    | none =>
      rw [evalRunGo_cons_none env i item rest hp] at h
      simp only [Option.isSome_none, Bool.false_eq_true, if_false]
      exact ih (i + 1) ms h
    | some project =>
      cases hjar : project.jar_files with
      | nil =>
        rw [evalRunGo_cons_nojar env i item rest project hp hjar] at h
        exact absurd h (by simp)
      | cons j js =>
        rw [evalRunGo_cons_jar env i item rest project j js hp hjar] at h
        rcases Option.map_eq_some'.mp h with ⟨ms', hms', rfl⟩
        simp [ih (i + 1) ms' hms']

/-- C3, amended: a metrics record exists exactly for the verification-ledger
entries whose `verified` flag is true AND whose project resolves in the
loader (so the only-if direction of the claim holds unconditionally, but a
verified entry whose project cannot be resolved is skipped and gets no
metrics record). -/
theorem metrics_iff_verified_resolved (env : EvalRunEnv)
    (valid_results : List VRecord) (ms : List MRecord)
    (h : evaluationRun env valid_results = some ms) :
    ms.map (fun r => (r.project, r.cls)) =
      ((valid_results.filter (fun r => r.verified)).filter
          (fun e => (env.getProject e.project).isSome)).map
        (fun e => (e.project, e.cls)) :=
  evalRunGo_keys env _ 1 ms h

/-- Verification ledger with a single verified entry. -/
def vrecVerified : List VRecord :=
  [{ project := "p", cls := "C", verified := true
     oracle_preserved := some true, error := none }]

/-- Measurement environment whose compilation fails; nothing else is
reached. -/
def measureEnvTrivial : MeasureEnv :=
  { codeMetrics := none
    compileRes := { returncode := 1, stdout := "", stderr := "error" }
    instrRes := { returncode := 0, stdout := "", stderr := "" }
    runRes := { returncode := 0, stdout := "", stderr := "" }
    execFileExists := false
    reportRes := { returncode := 0, stdout := "", stderr := "" }
    xmlFileExists := false
    jacocoReport := { classes := [] }
    pitXmlExists := false
    pitMutations := [] }

/-- Evaluation environment whose loader resolves no project. -/
def evalEnvUnresolvable : EvalRunEnv :=
  { getProject := fun _ => none
    measureEnvs := fun _ => measureEnvTrivial }

/-- Evaluation environment whose loader resolves every project to one with
a jar. -/
def evalEnvResolvable : EvalRunEnv :=
  { getProject := fun _ => some { jar_files := ["sut.jar"], path := "proj" }
    measureEnvs := fun _ => measureEnvTrivial }

/-- The metrics ledger produced for `vrecVerified` under
`evalEnvResolvable`. -/
def msResolved : List MRecord :=
  [{ project := "p", cls := "C"
     metrics := measure_metrics measureEnvTrivial "C" }]

/-- Counterexample for C3 as stated: a TestCase with a verified = true
VerificationRecord whose project does not resolve produces an empty metrics
ledger, so the "metrics record exists for every verified entry" direction
fails on the code. -/
theorem metrics_missing_for_verified :
    (vrecVerified.filter (fun r => r.verified)).length = 1 ∧
    evaluationRun evalEnvUnresolvable vrecVerified = some [] :=
  ⟨rfl, rfl⟩

/-- Witness for C3 (amended): with a resolvable project the single verified
entry yields exactly one metrics record with its keys. -/
theorem metrics_iff_verified_resolved_witness :
    msResolved.map (fun r => (r.project, r.cls)) =
      ((vrecVerified.filter (fun r => r.verified)).filter
          (fun e => (evalEnvResolvable.getProject e.project).isSome)).map
        (fun e => (e.project, e.cls)) :=
  metrics_iff_verified_resolved evalEnvResolvable vrecVerified msResolved rfl

end Pfc3
